import Mathlib

/-!
Verification of the 3d_city_walker simulation core (`BasicWorld`).

The embedding models the simulation state over exact rationals `ℚ` (the
source uses JS doubles; claims here are about exact control flow and
algebra, not float rounding), with the numeric library kernels that the
source takes from `Math` / three.js (`sin`, `cos`, `sqrt`) passed in as
function parameters so every definition stays executable; theorems are
proved for *all* interpretations of those kernels.  The enter/exit-car
state machine and the turn-radius facts, which genuinely depend on
properties of `sin`, `sqrt` and `π`, are modelled over `ℝ`.

Rendering, audio, textures and DOM handling are external collaborators
and are outside the model, as are purely visual fields (wheel spin,
footstep timers, engine pitch) that no simulation state reads back.
-/

namespace CityWalker

/-- three.js `Vector3` restricted to its coordinate data. -/
structure Vec3 where
  x : ℚ
  y : ℚ
  z : ℚ
  deriving DecidableEq, Repr

/-- three.js `Box3`: an axis-aligned box given by its `min` and `max`
corners.  The source stores building colliders in such boxes
(`buildingColliders: THREE.Box3[]`). -/
structure Box3 where
  minX : ℚ
  minY : ℚ
  minZ : ℚ
  maxX : ℚ
  maxY : ℚ
  maxZ : ℚ
  deriving DecidableEq, Repr

/-- three.js `Box3.containsPoint`: the box is only *declared* in the
source (`declare global { namespace THREE { class Box3 ... } }`, the
implementation comes from the three.js CDN build); the CDN
implementation tests containment on all three axes with inclusive
bounds, which is what is embedded here. -/
def Box3.containsPoint (b : Box3) (p : Vec3) : Bool :=
  decide (b.minX ≤ p.x ∧ p.x ≤ b.maxX ∧
          b.minY ≤ p.y ∧ p.y ≤ b.maxY ∧
          b.minZ ≤ p.z ∧ p.z ≤ b.maxZ)

/-- `BasicWorld.collides` (part_002, lines 289-294): true iff some stored
collider box contains the point. -/
def collides (boxes : List Box3) (p : Vec3) : Bool :=
  boxes.any (fun b => b.containsPoint p)

/-- The collider attached to a building in `BasicWorld.createObjects`
(part_002, lines 659-663): footprint `[x ± w/2] × [z ± d/2]`, vertical
range `[0, height]`. -/
def mkBuildingCollider (bx bz w d h : ℚ) : Box3 :=
  { minX := bx - w / 2, minY := 0, minZ := bz - d / 2,
    maxX := bx + w / 2, maxY := h, maxZ := bz + d / 2 }

/-- Modelled from the spec: the spec's `ColliderIndex.query` contract, a
pure 2D footprint test on the horizontal coordinates, "ignoring height
entirely".  Stated here only to be compared with the source's
`collides`. -/
def inFootprint (boxes : List Box3) (px pz : ℚ) : Bool :=
  boxes.any (fun b => decide (b.minX ≤ px ∧ px ≤ b.maxX ∧
                              b.minZ ≤ pz ∧ pz ≤ b.maxZ))

/-- The bulk collider translation performed by `BasicWorld.wrapWorld`
(part_002, lines 1071-1074): shift `min.x`/`max.x` by `dx` and
`min.z`/`max.z` by `dz`; the vertical range is untouched. -/
def translateAll (dx dz : ℚ) (boxes : List Box3) : List Box3 :=
  boxes.map (fun b =>
    { b with minX := b.minX + dx, maxX := b.maxX + dx,
             minZ := b.minZ + dz, maxZ := b.maxZ + dz })

theorem containsPoint_iff (b : Box3) (p : Vec3) :
    b.containsPoint p = true ↔
      b.minX ≤ p.x ∧ p.x ≤ b.maxX ∧ b.minY ≤ p.y ∧ p.y ≤ b.maxY ∧
      b.minZ ≤ p.z ∧ p.z ≤ b.maxZ := by
  simp [Box3.containsPoint]

/-- C1 counterexample: a single building collider with footprint
`[0,4] × [0,4]` and height 10, and the point `(2, 100, 2)`: the point's
horizontal coordinates lie inside the footprint, yet `collides` reports
`false`, so the query is not independent of the `y` coordinate — a point
far above a tall building's footprint is not blocked. -/
theorem collides_heightIgnored_cex :
    inFootprint [mkBuildingCollider 2 2 4 4 10] 2 2 = true ∧
      collides [mkBuildingCollider 2 2 4 4 10] ⟨2, 100, 2⟩ = false := by
  constructor
  · norm_num [inFootprint, mkBuildingCollider]
  · norm_num [collides, Box3.containsPoint, mkBuildingCollider]

/-- C1 (amended): `collides` is a full three-axis containment test:
`collides(p)` is true iff some stored box contains `p` on the x, y and z
axes simultaneously.  It collapses to the spec's pure 2D footprint test
exactly when `p.y` lies inside every stored box's vertical range — in
particular for ground-level points (`p.y = 0`) against the generated
building colliders, whose vertical range is `[0, height]`.  A point
above a building's height is not blocked. -/
theorem collides_footprint_amended :
    (∀ (boxes : List Box3) (p : Vec3),
      collides boxes p = true ↔
        ∃ b ∈ boxes, b.minX ≤ p.x ∧ p.x ≤ b.maxX ∧
          b.minY ≤ p.y ∧ p.y ≤ b.maxY ∧ b.minZ ≤ p.z ∧ p.z ≤ b.maxZ) ∧
    (∀ (boxes : List Box3) (p : Vec3),
      (∀ b ∈ boxes, b.minY ≤ p.y ∧ p.y ≤ b.maxY) →
        collides boxes p = inFootprint boxes p.x p.z) ∧
    (∀ bx bz w d h : ℚ, 0 ≤ h →
      (mkBuildingCollider bx bz w d h).minY = 0 ∧
      (mkBuildingCollider bx bz w d h).maxY = h) := by
  refine ⟨?_, ?_, ?_⟩
  · intro boxes p
    simp [collides, containsPoint_iff]
  · intro boxes p hy
    simp only [collides, inFootprint]
    induction boxes with
    | nil => rfl
    | cons b bs ih =>
      have hb := hy b (List.mem_cons_self b bs)
      have hbs : ∀ b' ∈ bs, b'.minY ≤ p.y ∧ p.y ≤ b'.maxY := by
        intro b' hb'
        exact hy b' (List.mem_cons_of_mem b hb')
      simp only [List.any_cons, ih hbs]
      congr 1
      simp only [Box3.containsPoint, decide_eq_decide]
      constructor
      · rintro ⟨h1, h2, _, _, h5, h6⟩
        exact ⟨h1, h2, h5, h6⟩
      · rintro ⟨h1, h2, h5, h6⟩
        exact ⟨h1, h2, hb.1, hb.2, h5, h6⟩
  · intro bx bz w d h _
    exact ⟨rfl, rfl⟩

/-- C1 witness: the amended theorem applied to a concrete ground-level
point and a concrete generated collider. -/
theorem collides_footprint_amended_wit :
    collides [mkBuildingCollider 2 2 4 4 10] ⟨2, 0, 2⟩ =
      inFootprint [mkBuildingCollider 2 2 4 4 10] 2 2 :=
  collides_footprint_amended.2.1 [mkBuildingCollider 2 2 4 4 10] ⟨2, 0, 2⟩
    (by norm_num [mkBuildingCollider])

/-- A single box shifted in x/z contains `p` iff the original box
contains the back-shifted point. -/
theorem containsPoint_shift (b : Box3) (dx dz : ℚ) (p : Vec3) :
    Box3.containsPoint
      { b with minX := b.minX + dx, maxX := b.maxX + dx,
               minZ := b.minZ + dz, maxZ := b.maxZ + dz } p
      = b.containsPoint ⟨p.x - dx, p.y, p.z - dz⟩ := by
  simp only [Box3.containsPoint, decide_eq_decide]
  constructor
  · rintro ⟨h1, h2, h3, h4, h5, h6⟩
    exact ⟨by linarith, by linarith, h3, h4, by linarith, by linarith⟩
  · rintro ⟨h1, h2, h3, h4, h5, h6⟩
    exact ⟨by linarith, by linarith, h3, h4, by linarith, by linarith⟩

/-- C6: translating every stored collider by a fixed `(dx, dz)` is a pure
coordinate shift of the collision query: for every point `p`, `collides`
evaluated on the translated boxes at `p` equals `collides` evaluated on
the original boxes at `p - (dx, 0, dz)`. -/
theorem translateAll_query_shift (boxes : List Box3) (dx dz : ℚ) (p : Vec3) :
    collides (translateAll dx dz boxes) p =
      collides boxes ⟨p.x - dx, p.y, p.z - dz⟩ := by
  induction boxes with
  | nil => rfl
  | cons b bs ih =>
    simp only [collides, translateAll, List.map_cons, List.any_cons] at ih ⊢
    rw [containsPoint_shift, ih]

/-! ### World wrapping (`BasicWorld.wrapWorld`, part_002 lines 1046-1103) -/

/-- `blockSize` (part_002, line 261). -/
def blockSize : ℚ := 20

/-- `streetWidth` (part_002, line 262). -/
def streetWidth : ℚ := 6

/-- `citySize` (part_002, line 263). -/
def citySize : ℚ := 10

/-- `chunkSize = citySize * (blockSize + streetWidth)` (constructor). -/
def chunkSize : ℚ := citySize * (blockSize + streetWidth)

/-- Kind tags for the scene children inspected by `wrapWorld`'s generic
loop.  In the source the loop recognises them by object identity
(`obj === this.character`, membership in `this.coins`, a child
`PointLight` contained in `this.streetLights`, ...); the character, car
and coins have dedicated translations before the loop. -/
inductive ObjKind where
  | sunMoon
  | sunTarget
  | lantern
  | camera
  | other
  deriving DecidableEq, Repr

/-- A scene child with its world position. -/
structure SceneObj where
  kind : ObjKind
  x : ℚ
  y : ℚ
  z : ℚ
  deriving DecidableEq, Repr

/-- Which object `this.cameraTarget` currently references. -/
inductive CamTarget where
  | character
  | car
  deriving DecidableEq, Repr

/-- The slice of `BasicWorld` state that `wrapWorld` reads and writes
(positions are only ever moved on x/z, so y coordinates of character and
car are omitted; scene children keep all three). -/
structure WrapState where
  cameraTarget : CamTarget
  charX : ℚ
  charZ : ℚ
  carX : ℚ
  carZ : ℚ
  colliders : List Box3
  coins : List Vec3
  others : List SceneObj
  deriving DecidableEq, Repr

/-- `target = this.cameraTarget || this.character`, x coordinate. -/
def targetX (w : WrapState) : ℚ :=
  match w.cameraTarget with
  | .character => w.charX
  | .car => w.carX

/-- `target = this.cameraTarget || this.character`, z coordinate. -/
def targetZ (w : WrapState) : ℚ :=
  match w.cameraTarget with
  | .character => w.charZ
  | .car => w.carZ

/-- `offsetX` computed by `wrapWorld`: `-chunkSize` when the target is
past `max = chunkSize/2`, `chunkSize` when past `-max`, else 0. -/
def wrapOffsetX (w : WrapState) : ℚ :=
  if targetX w > chunkSize / 2 then -chunkSize
  else if targetX w < -(chunkSize / 2) then chunkSize
  else 0

/-- `offsetZ` computed by `wrapWorld`. -/
def wrapOffsetZ (w : WrapState) : ℚ :=
  if targetZ w > chunkSize / 2 then -chunkSize
  else if targetZ w < -(chunkSize / 2) then chunkSize
  else 0

/-- The generic scene-children loop body of `wrapWorld`: objects that are
the sun/moon light or its target, a street-lantern group, or the camera
are left in place; every other child is translated. -/
def translateObj (dx dz : ℚ) (o : SceneObj) : SceneObj :=
  match o.kind with
  | .sunMoon => o
  | .sunTarget => o
  | .lantern => o
  | .camera => o
  | .other => { o with x := o.x + dx, z := o.z + dz }

/-- `BasicWorld.wrapWorld`: when either offset is nonzero, translate the
character, the car, every collider (min and max corners, x/z only),
every coin, and the generic scene children via `translateObj`. -/
def wrapWorld (w : WrapState) : WrapState :=
  if wrapOffsetX w ≠ 0 ∨ wrapOffsetZ w ≠ 0 then
    { w with
      charX := w.charX + wrapOffsetX w, charZ := w.charZ + wrapOffsetZ w,
      carX := w.carX + wrapOffsetX w, carZ := w.carZ + wrapOffsetZ w,
      colliders := translateAll (wrapOffsetX w) (wrapOffsetZ w) w.colliders,
      coins := w.coins.map
        (fun c => ⟨c.x + wrapOffsetX w, c.y, c.z + wrapOffsetZ w⟩),
      others := w.others.map (translateObj (wrapOffsetX w) (wrapOffsetZ w)) }
  else w

theorem translateAll_zero (boxes : List Box3) : translateAll 0 0 boxes = boxes := by
  induction boxes with
  | nil => rfl
  | cons b bs ih =>
    have hb : ({ b with minX := b.minX + 0, maxX := b.maxX + 0, minZ := b.minZ + 0, maxZ := b.maxZ + 0 } : Box3) = b := by
      simp
    show ({ b with minX := b.minX + 0, maxX := b.maxX + 0, minZ := b.minZ + 0, maxZ := b.maxZ + 0 } : Box3) :: translateAll 0 0 bs = b :: bs
    rw [hb, ih]

theorem translateObj_zero (o : SceneObj) : translateObj 0 0 o = o := by
  cases o with
  | mk k x y z => cases k <;> simp [translateObj]

theorem map_coinShift_zero (l : List Vec3) :
    l.map (fun c => (⟨c.x + 0, c.y, c.z + 0⟩ : Vec3)) = l := by
  induction l with
  | nil => rfl
  | cons c cs ih =>
    show (⟨c.x + 0, c.y, c.z + 0⟩ : Vec3) :: _ = _
    rw [ih]
    congr 1
    simp only [add_zero]

theorem map_translateObj_zero (l : List SceneObj) :
    l.map (translateObj 0 0) = l := by
  induction l with
  | nil => rfl
  | cons o os ih =>
    show translateObj 0 0 o :: _ = _
    rw [translateObj_zero, ih]

theorem wrapWorld_charX (w : WrapState) :
    (wrapWorld w).charX = w.charX + wrapOffsetX w := by
  unfold wrapWorld
  split
  · rfl
  · next h =>
    push_neg at h
    rw [h.1, add_zero]

theorem wrapWorld_charZ (w : WrapState) :
    (wrapWorld w).charZ = w.charZ + wrapOffsetZ w := by
  unfold wrapWorld
  split
  · rfl
  · next h =>
    push_neg at h
    rw [h.2, add_zero]

theorem wrapWorld_carX (w : WrapState) :
    (wrapWorld w).carX = w.carX + wrapOffsetX w := by
  unfold wrapWorld
  split
  · rfl
  · next h =>
    push_neg at h
    rw [h.1, add_zero]

theorem wrapWorld_carZ (w : WrapState) :
    (wrapWorld w).carZ = w.carZ + wrapOffsetZ w := by
  unfold wrapWorld
  split
  · rfl
  · next h =>
    push_neg at h
    rw [h.2, add_zero]

theorem wrapWorld_cameraTarget (w : WrapState) :
    (wrapWorld w).cameraTarget = w.cameraTarget := by
  unfold wrapWorld
  split <;> rfl

theorem wrapWorld_targetX (w : WrapState) :
    targetX (wrapWorld w) = targetX w + wrapOffsetX w := by
  unfold targetX
  rw [wrapWorld_cameraTarget]
  cases w.cameraTarget
  · exact wrapWorld_charX w
  · exact wrapWorld_carX w

theorem wrapWorld_targetZ (w : WrapState) :
    targetZ (wrapWorld w) = targetZ w + wrapOffsetZ w := by
  unfold targetZ
  rw [wrapWorld_cameraTarget]
  cases w.cameraTarget
  · exact wrapWorld_charZ w
  · exact wrapWorld_carZ w

/-- C2 counterexample: a world whose scene holds one street-lantern
group.  The wrap fires with offset `(-chunkSize, 0)`, the character is
translated, but the lantern group is left in place (the source's loop
explicitly excludes street-lantern groups), so the character-to-lantern
relative offset changes across the wrap. -/
theorem wrapWorld_lantern_skipped_cex :
    wrapOffsetX ⟨.character, 131, 0, 0, 0, [], [], [⟨.lantern, 5, 0, 5⟩]⟩ ≠ 0 ∧
    (wrapWorld ⟨.character, 131, 0, 0, 0, [], [], [⟨.lantern, 5, 0, 5⟩]⟩).others
      = [⟨.lantern, 5, 0, 5⟩] ∧
    (wrapWorld ⟨.character, 131, 0, 0, 0, [], [], [⟨.lantern, 5, 0, 5⟩]⟩).charX - 5
      ≠ (131 : ℚ) - 5 := by
  have hoff : wrapOffsetX ⟨.character, 131, 0, 0, 0, [], [], [⟨.lantern, 5, 0, 5⟩]⟩
      = -260 := by
    norm_num [wrapOffsetX, targetX, chunkSize, citySize, blockSize, streetWidth]
  have hoffz : wrapOffsetZ ⟨.character, 131, 0, 0, 0, [], [], [⟨.lantern, 5, 0, 5⟩]⟩
      = 0 := by
    norm_num [wrapOffsetZ, targetZ, chunkSize, citySize, blockSize, streetWidth]
  refine ⟨by rw [hoff]; norm_num, ?_, ?_⟩
  · show (wrapWorld _).others = _
    unfold wrapWorld
    rw [hoff, hoffz]
    norm_num [translateObj]
  · rw [wrapWorld_charX, hoff]
    norm_num

/-- C2 (amended): whenever the world wrap fires, the same `(dx, dz)`
translation is applied to both agents, to every stored collider (both
corners), to every coin, and to every generic scene child — but the
camera, the sun/moon light and its target, and street-lantern groups are
left untranslated, so the relative offset to a lantern (or to the sun)
is not preserved; rigidity holds only among the translated entities. -/
theorem wrapWorld_translation_amended (w : WrapState) :
    ((wrapWorld w).charX = w.charX + wrapOffsetX w ∧
     (wrapWorld w).charZ = w.charZ + wrapOffsetZ w ∧
     (wrapWorld w).carX = w.carX + wrapOffsetX w ∧
     (wrapWorld w).carZ = w.carZ + wrapOffsetZ w ∧
     (wrapWorld w).colliders = translateAll (wrapOffsetX w) (wrapOffsetZ w) w.colliders ∧
     (wrapWorld w).coins =
       w.coins.map (fun c => ⟨c.x + wrapOffsetX w, c.y, c.z + wrapOffsetZ w⟩) ∧
     (wrapWorld w).others = w.others.map (translateObj (wrapOffsetX w) (wrapOffsetZ w))) ∧
    (∀ (dx dz : ℚ) (o : SceneObj),
      (o.kind = .other →
        translateObj dx dz o = { o with x := o.x + dx, z := o.z + dz }) ∧
      (o.kind ≠ .other → translateObj dx dz o = o)) := by
  constructor
  · refine ⟨wrapWorld_charX w, wrapWorld_charZ w, wrapWorld_carX w, wrapWorld_carZ w,
      ?_, ?_, ?_⟩
    · unfold wrapWorld
      split
      · rfl
      · next h =>
        push_neg at h
        rw [h.1, h.2, translateAll_zero]
    · unfold wrapWorld
      split
      · rfl
      · next h =>
        push_neg at h
        rw [h.1, h.2, map_coinShift_zero]
    · unfold wrapWorld
      split
      · rfl
      · next h =>
        push_neg at h
        rw [h.1, h.2, map_translateObj_zero]
  · intro dx dz o
    constructor
    · intro hk
      cases o with
      | mk k x y z =>
        cases k <;> simp_all [translateObj]
    · intro hk
      cases o with
      | mk k x y z =>
        cases k <;> simp_all [translateObj]

/-- C2 witness: the amended theorem at a concrete world with one lantern
and one generic prop. -/
theorem wrapWorld_translation_amended_wit :
    translateObj 7 9 ⟨.other, 1, 2, 3⟩ = ⟨.other, 8, 2, 12⟩ ∧
    translateObj 7 9 ⟨.lantern, 1, 2, 3⟩ = ⟨.lantern, 1, 2, 3⟩ := by
  constructor
  · have h := (wrapWorld_translation_amended
      ⟨.character, 0, 0, 0, 0, [], [], []⟩).2 7 9 ⟨.other, 1, 2, 3⟩
    rw [h.1 rfl]
    norm_num
  · have h := (wrapWorld_translation_amended
      ⟨.character, 0, 0, 0, 0, [], [], []⟩).2 7 9 ⟨.lantern, 1, 2, 3⟩
    exact h.2 (by decide)

/-- C4 counterexample: with `chunkSize = 260` the bound is `±130`.  A
target that overshot to `x = 600` (more than one chunk past the bound)
still triggers the wrap (offset `-260 ≠ 0`), but its post-wrap
coordinate is `340`, outside `[-130, 130]`. -/
theorem wrapWorld_overshoot_cex :
    wrapOffsetX ⟨.character, 600, 0, 0, 0, [], [], []⟩ ≠ 0 ∧
    ¬ ((wrapWorld ⟨.character, 600, 0, 0, 0, [], [], []⟩).charX ≤ chunkSize / 2) := by
  have hoff : wrapOffsetX ⟨.character, 600, 0, 0, 0, [], [], []⟩ = -260 := by
    norm_num [wrapOffsetX, targetX, chunkSize, citySize, blockSize, streetWidth]
  constructor
  · rw [hoff]; norm_num
  · rw [wrapWorld_charX, hoff]
    norm_num [chunkSize, citySize, blockSize, streetWidth]

/-- C4 (amended): immediately after the wrap, the active target's
coordinate on each axis lies within `[-chunkSize/2, chunkSize/2]`
*provided* the pre-wrap coordinate did not overshoot the bound by more
than one chunk length (|coordinate| ≤ 3·chunkSize/2).  The wrap applies
a single one-chunk correction, so positions beyond that remain out of
bounds. -/
theorem wrapWorld_bound_amended (w : WrapState)
    (hx : -(3 * (chunkSize / 2)) ≤ targetX w ∧ targetX w ≤ 3 * (chunkSize / 2))
    (hz : -(3 * (chunkSize / 2)) ≤ targetZ w ∧ targetZ w ≤ 3 * (chunkSize / 2)) :
    (-(chunkSize / 2) ≤ targetX (wrapWorld w) ∧ targetX (wrapWorld w) ≤ chunkSize / 2) ∧
    (-(chunkSize / 2) ≤ targetZ (wrapWorld w) ∧ targetZ (wrapWorld w) ≤ chunkSize / 2) := by
  have hc : chunkSize = 260 := by norm_num [chunkSize, citySize, blockSize, streetWidth]
  rw [wrapWorld_targetX, wrapWorld_targetZ]
  rw [hc] at hx hz ⊢
  norm_num at hx hz ⊢
  constructor
  · unfold wrapOffsetX
    rw [hc]
    split
    · next h => norm_num at h ⊢; constructor <;> linarith [hx.2]
    · split
      · next h => norm_num at h ⊢; constructor <;> linarith [hx.1]
      · next h1 h2 =>
        norm_num at h1 h2 ⊢
        constructor <;> linarith
  · unfold wrapOffsetZ
    rw [hc]
    split
    · next h => norm_num at h ⊢; constructor <;> linarith [hz.2]
    · split
      · next h => norm_num at h ⊢; constructor <;> linarith [hz.1]
      · next h1 h2 =>
        norm_num at h1 h2 ⊢
        constructor <;> linarith

/-- C4 witness: the amended theorem at a target that overshot to
`x = 200` (within one chunk of the bound): post-wrap `x = -60`. -/
theorem wrapWorld_bound_amended_wit :
    (-(chunkSize / 2) ≤ targetX (wrapWorld ⟨.character, 200, 0, 0, 0, [], [], []⟩) ∧
      targetX (wrapWorld ⟨.character, 200, 0, 0, 0, [], [], []⟩) ≤ chunkSize / 2) ∧
    (-(chunkSize / 2) ≤ targetZ (wrapWorld ⟨.character, 200, 0, 0, 0, [], [], []⟩) ∧
      targetZ (wrapWorld ⟨.character, 200, 0, 0, 0, [], [], []⟩) ≤ chunkSize / 2) :=
  wrapWorld_bound_amended ⟨.character, 200, 0, 0, 0, [], [], []⟩
    (by norm_num [targetX, chunkSize, citySize, blockSize, streetWidth])
    (by norm_num [targetZ, chunkSize, citySize, blockSize, streetWidth])

/-! ### Locomotion (`updateCarMovement` / `updateCharacterMovement`,
part_002 lines 941-1021 and 888-940)

The source computes directions with `Math.sin` / `Math.cos` and lengths
with the square root inside three.js `normalize`; these numeric kernels
are passed in as parameters (`sinq`, `cosq`, `sqrtq`), as are the
irrational constants `π/2` (`halfPi`) and `carMaxSteeringAngleRad = π/7`
(`steerAngleMax`), so the model stays executable; every theorem below
holds for all interpretations.  Purely visual fields (wheel spin, front
wheel yaw, engine pitch, footstep timer, character facing smoothing) are
not part of the modelled state: nothing in the simulation reads them
back. -/

/-- The pressed-key snapshot the movement code reads (`w`/`s`/`a`/`d`,
with arrow keys as aliases already merged in). -/
structure Keys where
  w : Bool
  s : Bool
  a : Bool
  d : Bool
  deriving DecidableEq, Repr

/-- `carAcceleration` (part_002, line 250). -/
def carAcceleration : ℚ := 12

/-- `carDeceleration` (part_002, line 251). -/
def carDeceleration : ℚ := 15

/-- `carMaxSpeed` (part_002, line 252). -/
def carMaxSpeed : ℚ := 25

/-- `carReverseMaxSpeed` (part_002, line 253). -/
def carReverseMaxSpeed : ℚ := -8

/-- `carWheelBase = 2.8` (part_002, line 256). -/
def carWheelBase : ℚ := 14 / 5

/-- `moveSpeed` (part_002, line 225). -/
def moveSpeed : ℚ := 4

/-- `gravity` (part_002, line 239). -/
def gravity : ℚ := 20

/-- `characterFeetY` (part_002, line 241). -/
def characterFeetY : ℚ := 0

/-- `accelerationInput`: `0`, then set to `1` on forward keys, then set
to `-1` on backward keys (backward wins when both are held). -/
def accelerationInput (k : Keys) : ℚ :=
  if k.s then -1 else if k.w then 1 else 0

/-- `carSteeringInput`: `1` for left keys, else `-1` for right keys,
else `0` (recomputed from the key state every tick). -/
def carSteeringInput (k : Keys) : ℚ :=
  if k.a then 1 else if k.d then -1 else 0

/-- The car state `updateCarMovement` reads and writes. -/
structure CarState where
  posX : ℚ
  posY : ℚ
  posZ : ℚ
  rotY : ℚ
  speed : ℚ
  deriving DecidableEq, Repr

/-- Speed integration of `updateCarMovement` before the clamp:
acceleration when input is nonzero, otherwise friction toward zero with
a snap to exactly `0` below `0.1`. -/
def carSpeedRaw (k : Keys) (dt speed : ℚ) : ℚ :=
  if accelerationInput k ≠ 0 then
    speed + carAcceleration * accelerationInput k * dt
  else
    let sp1 :=
      if speed > 0 then speed - carDeceleration * dt
      else if speed < 0 then speed + carDeceleration * dt
      else speed
    if |sp1| < 1 / 10 then 0 else sp1

/-- The speed after the tick's clamp
`carSpeed = Math.max(carReverseMaxSpeed, Math.min(carMaxSpeed, carSpeed))`. -/
def carSpeedUpdated (k : Keys) (dt speed : ℚ) : ℚ :=
  max carReverseMaxSpeed (min carMaxSpeed (carSpeedRaw k dt speed))

/-- Steering of `updateCarMovement`: only when the (already updated)
speed and the steering input are both nonzero, integrate
`angularVelocity = speed / (wheelBase / sin(steeringInput * maxAngle))`
into the yaw. -/
def carRotUpdated (sinq : ℚ → ℚ) (steerAngleMax : ℚ) (k : Keys)
    (dt speed rotY : ℚ) : ℚ :=
  if speed ≠ 0 ∧ carSteeringInput k ≠ 0 then
    rotY + speed / (carWheelBase / sinq (carSteeringInput k * steerAngleMax)) * dt
  else rotY

/-- The candidate position of `updateCarMovement`: current position plus
the forward vector `(0,0,1)` rotated by the car's (yaw-only) quaternion
— i.e. `(sin yaw, 0, cos yaw)` — times `speed * dt`, using the updated
speed and yaw. -/
def carCandidate (sinq cosq : ℚ → ℚ) (steerAngleMax : ℚ) (k : Keys)
    (dt : ℚ) (s : CarState) : Vec3 :=
  ⟨s.posX + sinq (carRotUpdated sinq steerAngleMax k dt (carSpeedUpdated k dt s.speed) s.rotY)
      * (carSpeedUpdated k dt s.speed * dt),
   s.posY,
   s.posZ + cosq (carRotUpdated sinq steerAngleMax k dt (carSpeedUpdated k dt s.speed) s.rotY)
      * (carSpeedUpdated k dt s.speed * dt)⟩

/-- `BasicWorld.updateCarMovement`: update speed and yaw, test the
candidate against the colliders; on collision keep the horizontal
position and zero the speed, otherwise commit the candidate; in both
cases the car's `y` is pinned to the ground (`position.y = 0`). -/
def updateCarMovement (sinq cosq : ℚ → ℚ) (steerAngleMax : ℚ)
    (boxes : List Box3) (k : Keys) (dt : ℚ) (s : CarState) : CarState :=
  if collides boxes (carCandidate sinq cosq steerAngleMax k dt s) then
    { posX := s.posX, posY := 0, posZ := s.posZ,
      rotY := carRotUpdated sinq steerAngleMax k dt (carSpeedUpdated k dt s.speed) s.rotY,
      speed := 0 }
  else
    { posX := (carCandidate sinq cosq steerAngleMax k dt s).x, posY := 0,
      posZ := (carCandidate sinq cosq steerAngleMax k dt s).z,
      rotY := carRotUpdated sinq steerAngleMax k dt (carSpeedUpdated k dt s.speed) s.rotY,
      speed := carSpeedUpdated k dt s.speed }

/-- The character state `updateCharacterMovement` reads and writes. -/
structure CharState where
  posX : ℚ
  posY : ℚ
  posZ : ℚ
  velY : ℚ
  isJumping : Bool
  deriving DecidableEq, Repr

/-- `didMove`: some movement key is pressed. -/
def didMove (k : Keys) : Bool := k.w || k.s || k.a || k.d

/-- The unnormalised movement direction: sum of the camera-azimuth
forward vector `(sin az, 0, cos az)` and right vector
`(sin (az+π/2), 0, cos (az+π/2))` with signs given by the keys. -/
def charMoveDir (sinq cosq : ℚ → ℚ) (halfPi az : ℚ) (k : Keys) : Vec3 :=
  let fx := sinq az
  let fz := cosq az
  let rx := sinq (az + halfPi)
  let rz := cosq (az + halfPi)
  let x1 := if k.w then fx else 0
  let z1 := if k.w then fz else 0
  let x2 := if k.s then x1 - fx else x1
  let z2 := if k.s then z1 - fz else z1
  let x3 := if k.a then x2 + rx else x2
  let z3 := if k.a then z2 + rz else z2
  let x4 := if k.d then x3 - rx else x3
  let z4 := if k.d then z3 - rz else z3
  ⟨x4, 0, z4⟩

/-- The candidate position of the walk step: position plus the movement
direction normalised (divided by its `sqrt` length) and scaled by
`moveSpeed * dt`. -/
def charCandidate (sinq cosq sqrtq : ℚ → ℚ) (halfPi : ℚ) (k : Keys)
    (az dt : ℚ) (s : CharState) : Vec3 :=
  let d := charMoveDir sinq cosq halfPi az k
  let len := sqrtq (d.x * d.x + d.y * d.y + d.z * d.z)
  ⟨s.posX + d.x / len * (moveSpeed * dt),
   s.posY + d.y / len * (moveSpeed * dt),
   s.posZ + d.z / len * (moveSpeed * dt)⟩

/-- The horizontal phase of `updateCharacterMovement`: if a movement key
is held, the candidate is committed only when it does not collide; a
colliding candidate leaves the position untouched (full rejection, no
sliding, and no speed state exists to reset). -/
def charHorizontal (sinq cosq sqrtq : ℚ → ℚ) (halfPi : ℚ)
    (boxes : List Box3) (k : Keys) (az dt : ℚ) (s : CharState) : CharState :=
  if didMove k then
    if collides boxes (charCandidate sinq cosq sqrtq halfPi k az dt s) then s
    else
      { s with posX := (charCandidate sinq cosq sqrtq halfPi k az dt s).x,
               posY := (charCandidate sinq cosq sqrtq halfPi k az dt s).y,
               posZ := (charCandidate sinq cosq sqrtq halfPi k az dt s).z }
  else s

/-- Ground clamp of the non-jumping branch:
`if (y < feetY && y > -5) y = feetY`. -/
def charClamp (s : CharState) : CharState :=
  if s.posY < characterFeetY ∧ -5 < s.posY then { s with posY := characterFeetY }
  else s

/-- Fall-through-world respawn of the non-jumping branch:
`if (y < -50)` place the character next to the car at a safe height. -/
def charRespawn (carX carZ : ℚ) (s : CharState) : CharState :=
  if s.posY < -50 then
    { s with posX := carX + 3, posY := characterFeetY + 5, posZ := carZ,
             velY := 0, isJumping := false }
  else s

/-- Vertical phase of `updateCharacterMovement`: jump integration with
landing clamp, or (when grounded) the ground clamp followed by the
fall respawn. -/
def charVertical (dt carX carZ : ℚ) (s : CharState) : CharState :=
  if s.isJumping then
    if s.posY + s.velY * dt ≤ characterFeetY then
      { s with posY := characterFeetY, velY := 0, isJumping := false }
    else
      { s with posY := s.posY + s.velY * dt, velY := s.velY - gravity * dt }
  else charRespawn carX carZ (charClamp s)

/-- `BasicWorld.updateCharacterMovement` (positional part): horizontal
movement with collision rejection, then vertical physics. -/
def updateCharacterMovement (sinq cosq sqrtq : ℚ → ℚ) (halfPi : ℚ)
    (boxes : List Box3) (k : Keys) (az dt carX carZ : ℚ) (s : CharState) : CharState :=
  charVertical dt carX carZ (charHorizontal sinq cosq sqrtq halfPi boxes k az dt s)

/-- C5: after every vehicle-mode tick — for any key state, any
`deltaTime` and any prior state, hence for any sequence of acceleration
inputs — the car's scalar speed lies in
`[carReverseMaxSpeed, carMaxSpeed]`: the integration result is clamped
to that interval, and the collision branch writes `0`, which is inside
it. -/
theorem carSpeed_clamped (sinq cosq : ℚ → ℚ) (steerAngleMax : ℚ)
    (boxes : List Box3) (k : Keys) (dt : ℚ) (s : CarState) :
    carReverseMaxSpeed ≤ (updateCarMovement sinq cosq steerAngleMax boxes k dt s).speed ∧
    (updateCarMovement sinq cosq steerAngleMax boxes k dt s).speed ≤ carMaxSpeed := by
  unfold updateCarMovement
  split
  · norm_num [carReverseMaxSpeed, carMaxSpeed]
  · constructor
    · exact le_max_left _ _
    · show carSpeedUpdated k dt s.speed ≤ carMaxSpeed
      unfold carSpeedUpdated
      refine max_le ?_ (min_le_left _ _)
      norm_num [carReverseMaxSpeed, carMaxSpeed]

/-- C3: in vehicle mode, when the candidate position collides with a
stored collider, the vehicle's horizontal position is left unchanged
that tick and its speed is set to exactly 0; in on-foot mode a colliding
candidate likewise leaves the character's horizontal position unchanged
(no speed state exists to zero — the walk step has none), given only
that the character is above the fall-respawn threshold. -/
theorem vehicle_collision_stop :
    (∀ (sinq cosq : ℚ → ℚ) (steerAngleMax : ℚ) (boxes : List Box3)
       (k : Keys) (dt : ℚ) (s : CarState),
      collides boxes (carCandidate sinq cosq steerAngleMax k dt s) = true →
        (updateCarMovement sinq cosq steerAngleMax boxes k dt s).posX = s.posX ∧
        (updateCarMovement sinq cosq steerAngleMax boxes k dt s).posZ = s.posZ ∧
        (updateCarMovement sinq cosq steerAngleMax boxes k dt s).speed = 0) ∧
    (∀ (sinq cosq sqrtq : ℚ → ℚ) (halfPi : ℚ) (boxes : List Box3)
       (k : Keys) (az dt carX carZ : ℚ) (s : CharState),
      collides boxes (charCandidate sinq cosq sqrtq halfPi k az dt s) = true →
        -50 ≤ s.posY →
        (updateCharacterMovement sinq cosq sqrtq halfPi boxes k az dt carX carZ s).posX
          = s.posX ∧
        (updateCharacterMovement sinq cosq sqrtq halfPi boxes k az dt carX carZ s).posZ
          = s.posZ) := by
  constructor
  · intro sinq cosq steerAngleMax boxes k dt s hcol
    simp [updateCarMovement, hcol]
  · intro sinq cosq sqrtq halfPi boxes k az dt carX carZ s hcol hy
    have hh : charHorizontal sinq cosq sqrtq halfPi boxes k az dt s = s := by
      simp [charHorizontal, hcol]
    unfold updateCharacterMovement
    rw [hh]
    unfold charVertical
    split
    · split
      · exact ⟨rfl, rfl⟩
      · exact ⟨rfl, rfl⟩
    · simp only [charClamp, charRespawn]
      split
      · split
        · next h2 => norm_num [characterFeetY] at h2
        · exact ⟨rfl, rfl⟩
      · split
        · next h2 => exact absurd h2 (by simp only [not_lt]; linarith)
        · exact ⟨rfl, rfl⟩

/-- C3 witness: a car and a character parked at the origin inside a unit
collider box, with no keys held and `dt = 0`: the candidate is the
current position, which collides; both positions are unchanged and the
car speed is 0. -/
theorem vehicle_collision_stop_wit :
    ((updateCarMovement (fun _ => 0) (fun _ => 0) 0 [⟨-1, -1, -1, 1, 1, 1⟩]
        ⟨false, false, false, false⟩ 0 ⟨0, 0, 0, 0, 0⟩).posX = 0 ∧
     (updateCarMovement (fun _ => 0) (fun _ => 0) 0 [⟨-1, -1, -1, 1, 1, 1⟩]
        ⟨false, false, false, false⟩ 0 ⟨0, 0, 0, 0, 0⟩).posZ = 0 ∧
     (updateCarMovement (fun _ => 0) (fun _ => 0) 0 [⟨-1, -1, -1, 1, 1, 1⟩]
        ⟨false, false, false, false⟩ 0 ⟨0, 0, 0, 0, 0⟩).speed = 0) ∧
    ((updateCharacterMovement (fun _ => 0) (fun _ => 0) (fun _ => 1) 0 [⟨-1, -1, -1, 1, 1, 1⟩]
        ⟨false, false, false, false⟩ 0 0 9 9 ⟨0, 0, 0, 0, false⟩).posX = 0 ∧
     (updateCharacterMovement (fun _ => 0) (fun _ => 0) (fun _ => 1) 0 [⟨-1, -1, -1, 1, 1, 1⟩]
        ⟨false, false, false, false⟩ 0 0 9 9 ⟨0, 0, 0, 0, false⟩).posZ = 0) := by
  constructor
  · exact vehicle_collision_stop.1 (fun _ => 0) (fun _ => 0) 0 [⟨-1, -1, -1, 1, 1, 1⟩]
      ⟨false, false, false, false⟩ 0 ⟨0, 0, 0, 0, 0⟩
      (by norm_num [carCandidate, carSpeedUpdated, carSpeedRaw, carRotUpdated,
        accelerationInput, carSteeringInput, collides, Box3.containsPoint,
        carReverseMaxSpeed, carMaxSpeed, max_def, min_def])
  · exact vehicle_collision_stop.2 (fun _ => 0) (fun _ => 0) (fun _ => 1) 0
      [⟨-1, -1, -1, 1, 1, 1⟩] ⟨false, false, false, false⟩ 0 0 9 9 ⟨0, 0, 0, 0, false⟩
      (by norm_num [charCandidate, charMoveDir, collides, Box3.containsPoint, moveSpeed])
      (by norm_num)

/-- `carMaxSteeringAngleRad = Math.PI / 7` (part_002, line 255), as the
real number the float approximates. -/
noncomputable def carMaxSteeringAngleRadR : ℝ := Real.pi / 7

/-- `carWheelBase` as a real number. -/
noncomputable def carWheelBaseR : ℝ := 14 / 5

/-- `turnRadius = wheelBase / sin(steeringInput * maxSteeringAngle)`
over ℝ. -/
noncomputable def turnRadiusR (steer : ℝ) : ℝ :=
  carWheelBaseR / Real.sin (steer * carMaxSteeringAngleRadR)

/-- C7: the turning step is safe.  (i) In the tick function the turning
computation is skipped — the heading is returned unchanged — whenever
the steering input or the updated speed is zero; (ii) the steering input
only ever takes the values 1, 0, -1; and (iii) for the nonzero steering
inputs ±1 the sine denominator `sin(steeringInput * π/7)` and the
resulting turn radius are both nonzero, so the executed heading update
never divides by zero. -/
theorem turnRadius_no_div_zero :
    (∀ (sinq : ℚ → ℚ) (steerAngleMax : ℚ) (k : Keys) (dt speed rotY : ℚ),
      carSteeringInput k = 0 ∨ speed = 0 →
        carRotUpdated sinq steerAngleMax k dt speed rotY = rotY) ∧
    (∀ k : Keys,
      carSteeringInput k = 1 ∨ carSteeringInput k = 0 ∨ carSteeringInput k = -1) ∧
    (∀ steer : ℝ, steer = 1 ∨ steer = -1 →
      Real.sin (steer * carMaxSteeringAngleRadR) ≠ 0 ∧ turnRadiusR steer ≠ 0) := by
  refine ⟨?_, ?_, ?_⟩
  · intro sinq steerAngleMax k dt speed rotY h
    unfold carRotUpdated
    rcases h with h | h
    · rw [if_neg]
      simp [h]
    · rw [if_neg]
      simp [h]
  · intro k
    unfold carSteeringInput
    split
    · exact Or.inl rfl
    · split
      · exact Or.inr (Or.inr rfl)
      · exact Or.inr (Or.inl rfl)
  · intro steer hsteer
    have hpos : 0 < Real.sin carMaxSteeringAngleRadR := by
      apply Real.sin_pos_of_pos_of_lt_pi
      · unfold carMaxSteeringAngleRadR
        positivity
      · unfold carMaxSteeringAngleRadR
        have := Real.pi_pos
        linarith
    have hs : Real.sin (steer * carMaxSteeringAngleRadR) ≠ 0 := by
      rcases hsteer with h | h
      · rw [h, one_mul]
        exact ne_of_gt hpos
      · rw [h, neg_one_mul, Real.sin_neg]
        exact neg_ne_zero.mpr (ne_of_gt hpos)
    refine ⟨hs, ?_⟩
    unfold turnRadiusR
    apply div_ne_zero _ hs
    norm_num [carWheelBaseR]

/-- C7 witness: the skip-guard at zero steering input with every key
released, and the denominator fact at steering input 1. -/
theorem turnRadius_no_div_zero_wit :
    carRotUpdated (fun _ => 0) 0 ⟨false, false, false, false⟩ 1 5 3 = 3 ∧
    Real.sin (1 * carMaxSteeringAngleRadR) ≠ 0 ∧ turnRadiusR 1 ≠ 0 := by
  refine ⟨?_, ?_⟩
  · exact turnRadius_no_div_zero.1 (fun _ => 0) 0 ⟨false, false, false, false⟩ 1 5 3
      (Or.inl (by norm_num [carSteeringInput]))
  · exact turnRadius_no_div_zero.2.2 1 (Or.inl rfl)

/-! ### Day/night cycle (`BasicWorld.updateDayNightCycle`,
part_002 lines 823-887) -/

/-- three.js `Color` as exact rgb components; `new THREE.Color(hex)`
sets each component to `(hex component)/255`. -/
structure Color where
  r : ℚ
  g : ℚ
  b : ℚ
  deriving DecidableEq, Repr, Inhabited

/-- One row of the inline keyframe table of `updateDayNightCycle`. -/
structure Keyframe where
  time : ℚ
  sunIntensity : ℚ
  sunColor : Color
  ambientIntensity : ℚ
  ambientColor : Color
  fogColor : Color
  deriving DecidableEq, Repr, Inhabited

/-- `cycleDurationSeconds` (part_002, line 200). -/
def cycleDurationSeconds : ℚ := 120

/-- JavaScript's truncating integer part (the `%` operator truncates the
quotient toward zero). -/
def ratTrunc (q : ℚ) : ℤ := if 0 ≤ q then ⌊q⌋ else ⌈q⌉

/-- The JavaScript remainder `a % b`. -/
def jsRem (a b : ℚ) : ℚ := a - b * ratTrunc (a / b)

/-- The per-tick phase-accumulator update
`currentTimeOfDaySeconds = (currentTimeOfDaySeconds + deltaTime) % cycleDurationSeconds`. -/
def advanceTime (t dt : ℚ) : ℚ := jsRem (t + dt) cycleDurationSeconds

/-- `lerpScalar(v1, v2, t) = v1*(1-t) + v2*t`. -/
def lerpScalar (v1 v2 t : ℚ) : ℚ := v1 * (1 - t) + v2 * t

/-- `lerpColor` clones `color1` and calls three.js `Color.lerp`, which
moves each component by `(c2 - c1) * t`. -/
def lerpColor (c1 c2 : Color) (t : ℚ) : Color :=
  ⟨c1.r + (c2.r - c1.r) * t, c1.g + (c2.g - c1.g) * t, c1.b + (c2.b - c1.b) * t⟩

/-- Keyframe row `{ time: 0, ... }` (night); hex colors expanded to
components/255. -/
def kfNight0 : Keyframe :=
  ⟨0, 1/10, ⟨16/255, 32/255, 64/255⟩, 1/10, ⟨5/255, 16/255, 21/255⟩, ⟨0, 5/255, 16/255⟩⟩

/-- Keyframe row `{ time: 0.20, ... }` (dawn). -/
def kfDawn : Keyframe :=
  ⟨1/5, 2/5, ⟨128/255, 96/255, 160/255⟩, 3/10, ⟨32/255, 32/255, 48/255⟩, ⟨16/255, 16/255, 32/255⟩⟩

/-- Keyframe row `{ time: 0.25, ... }` (midday). -/
def kfDayA : Keyframe :=
  ⟨1/4, 1, ⟨255/255, 221/255, 170/255⟩, 4/5, ⟨64/255, 64/255, 96/255⟩, ⟨135/255, 206/255, 235/255⟩⟩

/-- Keyframe row `{ time: 0.30, ... }` (midday, hold). -/
def kfDayB : Keyframe :=
  ⟨3/10, 1, ⟨255/255, 221/255, 170/255⟩, 4/5, ⟨64/255, 64/255, 96/255⟩, ⟨135/255, 206/255, 235/255⟩⟩

/-- Keyframe row `{ time: 0.70, ... }` (dusk). -/
def kfDusk : Keyframe :=
  ⟨7/10, 3/5, ⟨255/255, 140/255, 96/255⟩, 1/2, ⟨48/255, 32/255, 32/255⟩, ⟨96/255, 64/255, 48/255⟩⟩

/-- Keyframe row `{ time: 0.75, ... }` (night). -/
def kfNight1 : Keyframe :=
  ⟨3/4, 1/10, ⟨16/255, 32/255, 64/255⟩, 1/10, ⟨5/255, 16/255, 21/255⟩, ⟨0, 5/255, 16/255⟩⟩

/-- Keyframe row `{ time: 1.0, ... }` (night, repeated for wrap). -/
def kfNight2 : Keyframe :=
  ⟨1, 1/10, ⟨16/255, 32/255, 64/255⟩, 1/10, ⟨5/255, 16/255, 21/255⟩, ⟨0, 5/255, 16/255⟩⟩

/-- The keyframe table of `updateDayNightCycle`:
night → dawn → day → day → dusk → night → night. -/
def dayNightKeyframes : List Keyframe :=
  [kfNight0, kfDawn, kfDayA, kfDayB, kfDusk, kfNight1, kfNight2]

/-- The bounding-pair scan: the source walks `i = 1..` and takes the
first `i` with `phase < keyframes[i].time` as `(prev, next) =
(keyframes[i-1], keyframes[i])`; here the adjacent pairs are scanned. -/
def findSeg (phase : ℚ) : List (Keyframe × Keyframe) → Option (Keyframe × Keyframe)
  | [] => none
  | p :: rest => if phase < p.2.time then some p else findSeg phase rest

/-- The `(prevFrame, nextFrame)` pair for a phase; when no pair matches
the initialisation `(keyframes[0], keyframes[1])` is kept, exactly as in
the source. -/
def findFrames (phase : ℚ) : Keyframe × Keyframe :=
  (findSeg phase (dayNightKeyframes.zip dayNightKeyframes.tail)).getD
    (dayNightKeyframes.headD default, dayNightKeyframes.tail.headD default)

/-- The interpolated per-tick lighting outputs. -/
structure DayNightOutputs where
  sunIntensity : ℚ
  sunColor : Color
  ambientIntensity : ℚ
  ambientColor : Color
  fogColor : Color
  deriving DecidableEq, Repr

/-- The interpolation step of `updateDayNightCycle`:
`t = (phase - prev.time) / (next.time - prev.time)` and channel-wise
lerps. -/
def dayNightOutputs (phase : ℚ) : DayNightOutputs :=
  ⟨lerpScalar (findFrames phase).1.sunIntensity (findFrames phase).2.sunIntensity
     ((phase - (findFrames phase).1.time) / ((findFrames phase).2.time - (findFrames phase).1.time)),
   lerpColor (findFrames phase).1.sunColor (findFrames phase).2.sunColor
     ((phase - (findFrames phase).1.time) / ((findFrames phase).2.time - (findFrames phase).1.time)),
   lerpScalar (findFrames phase).1.ambientIntensity (findFrames phase).2.ambientIntensity
     ((phase - (findFrames phase).1.time) / ((findFrames phase).2.time - (findFrames phase).1.time)),
   lerpColor (findFrames phase).1.ambientColor (findFrames phase).2.ambientColor
     ((phase - (findFrames phase).1.time) / ((findFrames phase).2.time - (findFrames phase).1.time)),
   lerpColor (findFrames phase).1.fogColor (findFrames phase).2.fogColor
     ((phase - (findFrames phase).1.time) / ((findFrames phase).2.time - (findFrames phase).1.time))⟩

/-- A keyframe's literal channel values. -/
def outputsOfKeyframe (f : Keyframe) : DayNightOutputs :=
  ⟨f.sunIntensity, f.sunColor, f.ambientIntensity, f.ambientColor, f.fogColor⟩

theorem jsRem_bound (a b : ℚ) (ha : 0 ≤ a) (hb : 0 < b) :
    0 ≤ jsRem a b ∧ jsRem a b < b := by
  have hq : 0 ≤ a / b := div_nonneg ha hb.le
  have ht : ratTrunc (a / b) = ⌊a / b⌋ := if_pos hq
  have hfr : jsRem a b = b * Int.fract (a / b) := by
    unfold jsRem
    rw [ht, Int.fract]
    field_simp
  constructor
  · rw [hfr]
    exact mul_nonneg hb.le (Int.fract_nonneg _)
  · rw [hfr]
    calc b * Int.fract (a / b) < b * 1 :=
      (mul_lt_mul_left hb).mpr (Int.fract_lt_one _)
    _ = b := mul_one b

theorem advanceTime_bound (t dt : ℚ) (ht : 0 ≤ t) (hdt : 0 ≤ dt) :
    0 ≤ advanceTime t dt ∧ advanceTime t dt < cycleDurationSeconds := by
  unfold advanceTime
  exact jsRem_bound (t + dt) cycleDurationSeconds (by linarith)
    (by norm_num [cycleDurationSeconds])

theorem foldl_advanceTime_bound (dts : List ℚ) (hdts : ∀ d ∈ dts, 0 ≤ d) :
    ∀ x : ℚ, 0 ≤ x → x < cycleDurationSeconds →
      0 ≤ dts.foldl advanceTime x ∧ dts.foldl advanceTime x < cycleDurationSeconds := by
  induction dts with
  | nil => intro x hx hx'; exact ⟨hx, hx'⟩
  | cons d ds ih =>
    intro x hx _
    have hd : 0 ≤ d := hdts d (List.mem_cons_self d ds)
    have hds : ∀ d' ∈ ds, 0 ≤ d' := fun d' h => hdts d' (List.mem_cons_of_mem d h)
    have hstep := advanceTime_bound x d hx hd
    exact ih hds (advanceTime x d) hstep.1 hstep.2

theorem lerpScalar_zero (v1 v2 : ℚ) : lerpScalar v1 v2 0 = v1 := by
  unfold lerpScalar; ring

theorem lerpColor_zero (c1 c2 : Color) : lerpColor c1 c2 0 = c1 := by
  cases c1
  unfold lerpColor
  simp

theorem lerpScalar_self (v t : ℚ) : lerpScalar v v t = v := by
  unfold lerpScalar; ring

theorem lerpColor_self (c : Color) (t : ℚ) : lerpColor c c t = c := by
  cases c
  unfold lerpColor
  simp

/-- When the scan lands on `(pr, nx)` and the phase is exactly
`pr.time`, the interpolation fraction is `0` and every channel equals
`pr`'s literal value (the quotient `0 / Δ` is `0` even for `Δ = 0`). -/
theorem dayNightOutputs_at_prev (phase : ℚ) (pr nx : Keyframe)
    (h : findFrames phase = (pr, nx)) (ht : phase = pr.time) :
    dayNightOutputs phase = outputsOfKeyframe pr := by
  unfold dayNightOutputs outputsOfKeyframe
  rw [h]
  simp only [ht, sub_self, zero_div, lerpScalar_zero, lerpColor_zero]

/-- Closed-form evaluation of the bounding-pair scan over the concrete
seven-row table. -/
theorem findFrames_eval (phase : ℚ) :
    findFrames phase =
      if phase < kfDawn.time then (kfNight0, kfDawn)
      else if phase < kfDayA.time then (kfDawn, kfDayA)
      else if phase < kfDayB.time then (kfDayA, kfDayB)
      else if phase < kfDusk.time then (kfDayB, kfDusk)
      else if phase < kfNight1.time then (kfDusk, kfNight1)
      else if phase < kfNight2.time then (kfNight1, kfNight2)
      else (kfNight0, kfDawn) := by
  unfold findFrames dayNightKeyframes
  simp only [List.zip_cons_cons, List.tail_cons, List.zip_nil_right, List.headD_cons, findSeg]
  split_ifs <;> rfl

/-- C8: (i) starting from the constructor's `cycleDuration/4`, the
phase accumulator stays in `[0, cycleDuration)` under any sequence of
nonnegative `deltaTime`s; (ii) at a phase exactly equal to a (reachable,
`time < 1`) keyframe's time every interpolated output equals that
keyframe's literal values; (iii) for every phase in the final segment
`[0.75, 1)` the outputs are exactly equal to the outputs at phase 0,
because (iv) the final keyframe carries the same values as the first. -/
theorem dayNight_phase_keyframe :
    (∀ dts : List ℚ, (∀ d ∈ dts, 0 ≤ d) →
      0 ≤ dts.foldl advanceTime (cycleDurationSeconds / 4) ∧
      dts.foldl advanceTime (cycleDurationSeconds / 4) < cycleDurationSeconds) ∧
    (∀ f ∈ dayNightKeyframes, f.time < 1 →
      dayNightOutputs f.time = outputsOfKeyframe f) ∧
    (∀ p : ℚ, 3 / 4 ≤ p → p < 1 → dayNightOutputs p = dayNightOutputs 0) ∧
    dayNightKeyframes.getLast?.map outputsOfKeyframe
      = dayNightKeyframes.head?.map outputsOfKeyframe := by
  refine ⟨?_, ?_, ?_, ?_⟩
  · intro dts hdts
    exact foldl_advanceTime_bound dts hdts (cycleDurationSeconds / 4)
      (by norm_num [cycleDurationSeconds]) (by norm_num [cycleDurationSeconds])
  · intro f hf hlt
    simp only [dayNightKeyframes, List.mem_cons, List.not_mem_nil, or_false] at hf
    rcases hf with rfl | rfl | rfl | rfl | rfl | rfl | rfl
    · exact dayNightOutputs_at_prev _ _ kfDawn
        (by rw [findFrames_eval]
            norm_num [kfNight0, kfDawn, kfDayA, kfDayB, kfDusk, kfNight1, kfNight2]) rfl
    · exact dayNightOutputs_at_prev _ _ kfDayA
        (by rw [findFrames_eval]
            norm_num [kfNight0, kfDawn, kfDayA, kfDayB, kfDusk, kfNight1, kfNight2]) rfl
    · exact dayNightOutputs_at_prev _ _ kfDayB
        (by rw [findFrames_eval]
            norm_num [kfNight0, kfDawn, kfDayA, kfDayB, kfDusk, kfNight1, kfNight2]) rfl
    · exact dayNightOutputs_at_prev _ _ kfDusk
        (by rw [findFrames_eval]
            norm_num [kfNight0, kfDawn, kfDayA, kfDayB, kfDusk, kfNight1, kfNight2]) rfl
    · exact dayNightOutputs_at_prev _ _ kfNight1
        (by rw [findFrames_eval]
            norm_num [kfNight0, kfDawn, kfDayA, kfDayB, kfDusk, kfNight1, kfNight2]) rfl
    · exact dayNightOutputs_at_prev _ _ kfNight2
        (by rw [findFrames_eval]
            norm_num [kfNight0, kfDawn, kfDayA, kfDayB, kfDusk, kfNight1, kfNight2]) rfl
    · exact absurd hlt (by norm_num [kfNight2])
  · intro p hp hp1
    have hff : findFrames p = (kfNight1, kfNight2) := by
      rw [findFrames_eval]
      have c1 : ¬ (p < kfDawn.time) := by
        rw [show kfDawn.time = (1 / 5 : ℚ) from rfl]
        linarith
      have c2 : ¬ (p < kfDayA.time) := by
        rw [show kfDayA.time = (1 / 4 : ℚ) from rfl]
        linarith
      have c3 : ¬ (p < kfDayB.time) := by
        rw [show kfDayB.time = (3 / 10 : ℚ) from rfl]
        linarith
      have c4 : ¬ (p < kfDusk.time) := by
        rw [show kfDusk.time = (7 / 10 : ℚ) from rfl]
        linarith
      have c5 : ¬ (p < kfNight1.time) := by
        rw [show kfNight1.time = (3 / 4 : ℚ) from rfl]
        linarith
      have c6 : p < kfNight2.time := by
        rw [show kfNight2.time = (1 : ℚ) from rfl]
        linarith
      rw [if_neg c1, if_neg c2, if_neg c3, if_neg c4, if_neg c5, if_pos c6]
    have hL : dayNightOutputs p = outputsOfKeyframe kfNight1 := by
      unfold dayNightOutputs
      rw [hff]
      rw [show kfNight2.sunIntensity = kfNight1.sunIntensity from rfl,
          show kfNight2.sunColor = kfNight1.sunColor from rfl,
          show kfNight2.ambientIntensity = kfNight1.ambientIntensity from rfl,
          show kfNight2.ambientColor = kfNight1.ambientColor from rfl,
          show kfNight2.fogColor = kfNight1.fogColor from rfl,
          lerpScalar_self, lerpScalar_self, lerpColor_self, lerpColor_self, lerpColor_self]
      rfl
    have hR : dayNightOutputs 0 = outputsOfKeyframe kfNight0 := by
      refine dayNightOutputs_at_prev 0 kfNight0 kfDawn ?_ rfl
      rw [findFrames_eval]
      rw [if_pos (by rw [show kfDawn.time = (1 / 5 : ℚ) from rfl]; norm_num)]
    rw [hL, hR]
    rfl
  · rfl

/-- C8 witness: the accumulator bound after ticks of 100 s and 50 s, the
exactness at the dawn keyframe, and the wrap segment at phase 4/5. -/
theorem dayNight_phase_keyframe_wit :
    (0 ≤ [(100 : ℚ), 50].foldl advanceTime (cycleDurationSeconds / 4) ∧
      [(100 : ℚ), 50].foldl advanceTime (cycleDurationSeconds / 4) < cycleDurationSeconds) ∧
    dayNightOutputs kfDawn.time = outputsOfKeyframe kfDawn ∧
    dayNightOutputs (4 / 5) = dayNightOutputs 0 := by
  refine ⟨?_, ?_, ?_⟩
  · exact dayNight_phase_keyframe.1 [100, 50] (by norm_num)
  · exact dayNight_phase_keyframe.2.1 kfDawn
      (by simp [dayNightKeyframes]) (by norm_num [kfDawn])
  · exact dayNight_phase_keyframe.2.2.1 (4 / 5) (by norm_num) (by norm_num)

/-! ### Enter/exit vehicle (`BasicWorld.enterOrExitCar`, part_002
lines 697-730)

This state machine genuinely depends on Euclidean distance (the enter
gate) and on quaternion rotation (the exit offset), so it is modelled
over `ℝ` with `Real.sqrt`. -/

/-- A real-valued 3D vector. -/
structure Vec3R where
  x : ℝ
  y : ℝ
  z : ℝ

/-- `enterCarDistance = 3.0` (part_002, line 258). -/
def enterCarDistance : ℝ := 3

/-- `characterFeetY = 0` over ℝ. -/
def characterFeetYR : ℝ := 0

/-- `characterHeight = 1.8` over ℝ. -/
noncomputable def characterHeightR : ℝ := 9 / 5

/-- three.js `Vector3.applyQuaternion`:
`t = 2 (q.xyz × v)`, `v' = v + q.w t + q.xyz × t`. -/
def applyQuaternion (qx qy qz qw : ℝ) (v : Vec3R) : Vec3R :=
  ⟨v.x + qw * (2 * (qy * v.z - qz * v.y))
      + (qy * (2 * (qx * v.y - qy * v.x)) - qz * (2 * (qz * v.x - qx * v.z))),
   v.y + qw * (2 * (qz * v.x - qx * v.z))
      + (qz * (2 * (qy * v.z - qz * v.y)) - qx * (2 * (qx * v.y - qy * v.x))),
   v.z + qw * (2 * (qx * v.y - qy * v.x))
      + (qx * (2 * (qz * v.x - qx * v.z)) - qy * (2 * (qy * v.z - qz * v.y)))⟩

/-- three.js `Vector3.distanceTo`. -/
noncomputable def distanceTo (a c : Vec3R) : ℝ :=
  Real.sqrt ((a.x - c.x) ^ 2 + (a.y - c.y) ^ 2 + (a.z - c.z) ^ 2)

/-- The slice of `BasicWorld` state that `enterOrExitCar` reads and
writes: mode flag, character position/visibility, car position,
orientation (quaternion), speed and steering, and the camera
target/offset.  The engine-sound start/stop calls are external audio. -/
structure GameState where
  isInCar : Bool
  charX : ℝ
  charY : ℝ
  charZ : ℝ
  charVisible : Bool
  carX : ℝ
  carY : ℝ
  carZ : ℝ
  qx : ℝ
  qy : ℝ
  qz : ℝ
  qw : ℝ
  carSpeed : ℝ
  carSteering : ℝ
  cameraTarget : CamTarget
  camOffX : ℝ
  camOffY : ℝ
  camOffZ : ℝ

/-- `BasicWorld.enterOrExitCar`.  Exit (fires unconditionally from the
in-vehicle state): character becomes visible at the car position plus
`(1.5, 0, 0)` rotated by the car quaternion, its `y` snapped to
`characterFeetY`; camera target/offset revert to the character; speed
is zeroed.  Enter (gated): only when the character-to-car distance is
below `enterCarDistance`; character hidden, camera retargeted to the
car, speed and steering zeroed. -/
noncomputable def enterOrExitCar (g : GameState) : GameState :=
  if g.isInCar then
    { g with
      isInCar := false,
      charVisible := true,
      charX := g.carX + (applyQuaternion g.qx g.qy g.qz g.qw ⟨3 / 2, 0, 0⟩).x,
      charY := characterFeetYR,
      charZ := g.carZ + (applyQuaternion g.qx g.qy g.qz g.qw ⟨3 / 2, 0, 0⟩).z,
      cameraTarget := .character,
      camOffX := 0, camOffY := characterHeightR * (4 / 5), camOffZ := 0,
      carSpeed := 0 }
  else
    if distanceTo ⟨g.charX, g.charY, g.charZ⟩ ⟨g.carX, g.carY, g.carZ⟩
        < enterCarDistance then
      { g with
        isInCar := true,
        charVisible := false,
        cameraTarget := .car,
        camOffX := 0, camOffY := 3 / 2, camOffZ := 0,
        carSpeed := 0,
        carSteering := 0 }
    else g

/-- C9: the toggle is a round trip.  From on-foot within the enter
distance, one toggle enters the vehicle (speed zeroed, character hidden,
steering reset, camera on the car); the next toggle fires
unconditionally and returns on-foot with speed again zeroed, the
character visible, placed at the car position plus the fixed lateral
offset `(1.5, 0, 0)` rotated by the car's orientation, snapped to ground
height, and the camera back on the character. -/
theorem enterExit_round_trip (g : GameState)
    (h0 : g.isInCar = false)
    (hd : distanceTo ⟨g.charX, g.charY, g.charZ⟩ ⟨g.carX, g.carY, g.carZ⟩
        < enterCarDistance) :
    ((enterOrExitCar g).isInCar = true ∧
     (enterOrExitCar g).carSpeed = 0 ∧
     (enterOrExitCar g).charVisible = false ∧
     (enterOrExitCar g).carSteering = 0 ∧
     (enterOrExitCar g).cameraTarget = .car) ∧
    ((enterOrExitCar (enterOrExitCar g)).isInCar = false ∧
     (enterOrExitCar (enterOrExitCar g)).carSpeed = 0 ∧
     (enterOrExitCar (enterOrExitCar g)).charVisible = true ∧
     (enterOrExitCar (enterOrExitCar g)).cameraTarget = .character ∧
     (enterOrExitCar (enterOrExitCar g)).charX
        = g.carX + (applyQuaternion g.qx g.qy g.qz g.qw ⟨3 / 2, 0, 0⟩).x ∧
     (enterOrExitCar (enterOrExitCar g)).charY = characterFeetYR ∧
     (enterOrExitCar (enterOrExitCar g)).charZ
        = g.carZ + (applyQuaternion g.qx g.qy g.qz g.qw ⟨3 / 2, 0, 0⟩).z) := by
  have h1 : enterOrExitCar g =
      { g with
        isInCar := true, charVisible := false, cameraTarget := .car,
        camOffX := 0, camOffY := 3 / 2, camOffZ := 0,
        carSpeed := 0, carSteering := 0 } := by
    unfold enterOrExitCar
    rw [h0]
    simp only [Bool.false_eq_true, if_false]
    rw [if_pos hd]
  rw [h1]
  unfold enterOrExitCar
  simp

/-- C9 witness: character and car both at the origin (distance 0 < 3),
identity orientation. -/
theorem enterExit_round_trip_wit :
    (enterOrExitCar (⟨false, 0, 0, 0, true, 0, 0, 0, 0, 0, 0, 1, 0, 0,
        .character, 0, 0, 0⟩ : GameState)).isInCar = true ∧
    (enterOrExitCar (enterOrExitCar (⟨false, 0, 0, 0, true, 0, 0, 0, 0, 0, 0, 1, 0, 0,
        .character, 0, 0, 0⟩ : GameState))).isInCar = false ∧
    (enterOrExitCar (enterOrExitCar (⟨false, 0, 0, 0, true, 0, 0, 0, 0, 0, 0, 1, 0, 0,
        .character, 0, 0, 0⟩ : GameState))).carSpeed = 0 := by
  have h := enterExit_round_trip
    (⟨false, 0, 0, 0, true, 0, 0, 0, 0, 0, 0, 1, 0, 0, .character, 0, 0, 0⟩ : GameState)
    rfl
    (by norm_num [distanceTo, enterCarDistance, Real.sqrt_zero])
  exact ⟨h.1.1, h.2.1, h.2.2.1⟩

/-- C10: immediately after the in-vehicle → on-foot toggle with a
yaw-only unit orientation and the car on the ground, the character's
distance to the vehicle is exactly 1.5 (the rotated exit offset keeps
its length and both heights are 0), which is strictly below
`enterCarDistance = 3`, so a subsequent toggle always re-enters the
vehicle. -/
theorem exit_distance_reenter (g : GameState)
    (hin : g.isInCar = true)
    (hqx : g.qx = 0) (hqz : g.qz = 0)
    (hunit : g.qy ^ 2 + g.qw ^ 2 = 1)
    (hcy : g.carY = 0) :
    distanceTo
        ⟨(enterOrExitCar g).charX, (enterOrExitCar g).charY, (enterOrExitCar g).charZ⟩
        ⟨(enterOrExitCar g).carX, (enterOrExitCar g).carY, (enterOrExitCar g).carZ⟩
      = 3 / 2 ∧
    (3 / 2 : ℝ) < enterCarDistance ∧
    (enterOrExitCar (enterOrExitCar g)).isInCar = true := by
  have h1 : enterOrExitCar g =
      { g with
        isInCar := false, charVisible := true,
        charX := g.carX + (applyQuaternion g.qx g.qy g.qz g.qw ⟨3 / 2, 0, 0⟩).x,
        charY := characterFeetYR,
        charZ := g.carZ + (applyQuaternion g.qx g.qy g.qz g.qw ⟨3 / 2, 0, 0⟩).z,
        cameraTarget := .character,
        camOffX := 0, camOffY := characterHeightR * (4 / 5), camOffZ := 0,
        carSpeed := 0 } := by
    unfold enterOrExitCar
    rw [hin]
    simp
  have h32 : Real.sqrt ((3 / 2 : ℝ) ^ 2) = 3 / 2 :=
    Real.sqrt_sq (by norm_num : (0 : ℝ) ≤ 3 / 2)
  have hdist : distanceTo
      ⟨(enterOrExitCar g).charX, (enterOrExitCar g).charY, (enterOrExitCar g).charZ⟩
      ⟨(enterOrExitCar g).carX, (enterOrExitCar g).carY, (enterOrExitCar g).carZ⟩
      = 3 / 2 := by
    rw [h1]
    unfold distanceTo applyQuaternion characterFeetYR
    dsimp only
    rw [hqx, hqz, hcy]
    conv_rhs => rw [← h32]
    congr 1
    linear_combination (9 * g.qy ^ 2) * hunit
  refine ⟨hdist, by norm_num [enterCarDistance], ?_⟩
  have h2 : (enterOrExitCar g).isInCar = false := by
    rw [h1]
  set s1 := enterOrExitCar g with hs1
  have hgate : distanceTo ⟨s1.charX, s1.charY, s1.charZ⟩ ⟨s1.carX, s1.carY, s1.carZ⟩
      < enterCarDistance := by
    rw [hdist]
    norm_num [enterCarDistance]
  unfold enterOrExitCar
  rw [h2]
  simp only [Bool.false_eq_true, if_false]
  rw [if_pos hgate]

/-- C10 witness: identity orientation, car grounded at the origin. -/
theorem exit_distance_reenter_wit :
    distanceTo
        ⟨(enterOrExitCar (⟨true, 0, 0, 0, false, 0, 0, 0, 0, 0, 0, 1, 0, 0,
            .car, 0, 0, 0⟩ : GameState)).charX,
         (enterOrExitCar (⟨true, 0, 0, 0, false, 0, 0, 0, 0, 0, 0, 1, 0, 0,
            .car, 0, 0, 0⟩ : GameState)).charY,
         (enterOrExitCar (⟨true, 0, 0, 0, false, 0, 0, 0, 0, 0, 0, 1, 0, 0,
            .car, 0, 0, 0⟩ : GameState)).charZ⟩
        ⟨(enterOrExitCar (⟨true, 0, 0, 0, false, 0, 0, 0, 0, 0, 0, 1, 0, 0,
            .car, 0, 0, 0⟩ : GameState)).carX,
         (enterOrExitCar (⟨true, 0, 0, 0, false, 0, 0, 0, 0, 0, 0, 1, 0, 0,
            .car, 0, 0, 0⟩ : GameState)).carY,
         (enterOrExitCar (⟨true, 0, 0, 0, false, 0, 0, 0, 0, 0, 0, 1, 0, 0,
            .car, 0, 0, 0⟩ : GameState)).carZ⟩
      = 3 / 2 ∧
    (enterOrExitCar (enterOrExitCar (⟨true, 0, 0, 0, false, 0, 0, 0, 0, 0, 0, 1, 0, 0,
        .car, 0, 0, 0⟩ : GameState))).isInCar = true := by
  have h := exit_distance_reenter
    (⟨true, 0, 0, 0, false, 0, 0, 0, 0, 0, 0, 1, 0, 0, .car, 0, 0, 0⟩ : GameState)
    rfl rfl rfl (by norm_num) rfl
  exact ⟨h.1, h.2.2⟩

end CityWalker
